import Mathlib

/-!
Verification of the chunk-normalization pipeline of
`navigator-document-text-processing`.

Shallow embedding of `src/models.py`, `src/pipeline.py`, `src/utils.py` and
`src/chunk_processors.py`.  Python strings are Lean `String`s (character-list
algorithms work on `List Char`); machine floats in bounding-box coordinates
are modelled as rationals `ℚ` (only their strict-order comparisons are used by
the code); fallible Python code (raising `ValueError` / pydantic
`ValidationError`) is modelled with `Except String`.
-/

set_option maxRecDepth 10000

namespace NavDoc

/-- The closed enumeration `BlockType` from `cpr_sdk.parser_models` (an
external collaborator of this repository; the spec §3 documents it as a closed
enumeration).  Constructors carry the enum member names; `ofString` maps the
enum *values* (the strings accepted by `BlockType(...)`). -/
inductive BlockType where
  | TEXT
  | TITLE
  | LIST
  | TABLE
  | TABLE_CELL
  | FIGURE
  | PAGE_HEADER
  | PAGE_FOOTER
  | TITLE_LOWER_CASE
  | SECTION_HEADING
  | PAGE_NUMBER
  | DOCUMENT_HEADER
  | FOOT_NOTE
  deriving DecidableEq, Repr

/-- `BlockType(value)` for a string value: `some` on a known enum value,
`none` when the Python enum constructor raises `ValueError` (standard Python
`Enum` behaviour on an unknown value). -/
def BlockType.ofString (s : String) : Option BlockType :=
  if s = "Text" then some .TEXT
  else if s = "Title" then some .TITLE
  else if s = "List" then some .LIST
  else if s = "Table" then some .TABLE
  else if s = "TableCell" then some .TABLE_CELL
  else if s = "Figure" then some .FIGURE
  else if s = "pageHeader" then some .PAGE_HEADER
  else if s = "pageFooter" then some .PAGE_FOOTER
  else if s = "title" then some .TITLE_LOWER_CASE
  else if s = "sectionHeading" then some .SECTION_HEADING
  else if s = "pageNumber" then some .PAGE_NUMBER
  else if s = "Document Header" then some .DOCUMENT_HEADER
  else if s = "footnote" then some .FOOT_NOTE
  else none

/-- A bounding-box polygon: a list of `(x, y)` points (coordinates as
rationals standing in for the Python floats). -/
abbrev BBox := List (ℚ × ℚ)

/-- `Chunk` from `src/models.py`.  `heading` is a full chunk (the Python field
holds a reference to another `Chunk`), hence the nested-inductive definition.
`id` is the Python `id` field (a non-negative int, pydantic `ge=0`). -/
inductive Chunk : Type where
  | mk
      (id : Nat)
      (text : String)
      (chunk_type : BlockType)
      (heading : Option Chunk)
      (bounding_boxes : Option (List BBox))
      (pages : Option (List Int))
      (tokens : Option (List String))
      (serialized_text : Option String)

namespace Chunk

def id : Chunk → Nat
  | .mk i _ _ _ _ _ _ _ => i

def text : Chunk → String
  | .mk _ t _ _ _ _ _ _ => t

def chunk_type : Chunk → BlockType
  | .mk _ _ ty _ _ _ _ _ => ty

def heading : Chunk → Option Chunk
  | .mk _ _ _ h _ _ _ _ => h

def bounding_boxes : Chunk → Option (List BBox)
  | .mk _ _ _ _ b _ _ _ => b

def pages : Chunk → Option (List Int)
  | .mk _ _ _ _ _ p _ _ => p

def tokens : Chunk → Option (List String)
  | .mk _ _ _ _ _ _ tk _ => tk

def serialized_text : Chunk → Option String
  | .mk _ _ _ _ _ _ _ s => s

/-- `model_copy(update={"text": ...})` / in-place `chunk.text = ...` on a
fresh object: record update of the text field. -/
def withText (c : Chunk) (t : String) : Chunk :=
  match c with
  | .mk i _ ty h b p tk s => .mk i t ty h b p tk s

/-- Record update of the chunk type (`model_copy(update={"chunk_type": ...})`
or in-place assignment on a fresh merge result). -/
def withType (c : Chunk) (ty : BlockType) : Chunk :=
  match c with
  | .mk i t _ h b p tk s => .mk i t ty h b p tk s

/-- Record update of the heading field. -/
def withHeading (c : Chunk) (h : Option Chunk) : Chunk :=
  match c with
  | .mk i t ty _ b p tk s => .mk i t ty h b p tk s

end Chunk

/-- The pydantic field validator `Chunk._verify_bounding_boxes` on one box:
exactly four points, and `xmin < xmax ∧ ymin < ymax` reading
`xmin = box[0][0]`, `ymin = box[0][1]`, `xmax = box[1][0]`, `ymax = box[2][1]`. -/
def validBox (box : BBox) : Bool :=
  match box with
  | [p0, p1, p2, _] => decide (p0.1 < p1.1) && decide (p0.2 < p2.2)
  | _ => false

/-- The validator over the optional list of boxes: `None` passes, otherwise
every box must be valid. -/
def validBoxes (bbs : Option (List BBox)) : Bool :=
  match bbs with
  | none => true
  | some l => l.all validBox

/-- `Chunk(...)`: pydantic construction, running the bounding-box validator
(`ValueError` → `Except.error`).  `heading`, `tokens` and `serialized_text`
default to `None` at every call site in the source, so they are fixed to
`none` here. -/
def chunkNew (id : Nat) (text : String) (ty : BlockType)
    (bbs : Option (List BBox)) (pgs : Option (List Int)) :
    Except String Chunk :=
  if validBoxes bbs then
    .ok (.mk id text ty none bbs pgs none none)
  else
    .error "ValueError: bounding boxes invalid"

/-- `Chunk._check_incompatible_properties`: the nullable properties
(`bounding_boxes`, `pages`) whose nullability differs between the receiver and
some other chunk. -/
def checkIncompatibleProperties (self : Chunk) (others : List Chunk) :
    List String :=
  (if others.any (fun c => c.bounding_boxes.isNone ≠ self.bounding_boxes.isNone)
   then ["bounding_boxes"] else []) ++
  (if others.any (fun c => c.pages.isNone ≠ self.pages.isNone)
   then ["pages"] else [])

/-- The flattened bounding boxes of a list of chunks: Python's
`[box for chunk in all_chunks if chunk.bounding_boxes is not None
for box in chunk.bounding_boxes]`. -/
def allBoxes (cs : List Chunk) : List BBox :=
  cs.foldr (fun c acc => (c.bounding_boxes.getD []) ++ acc) []

/-- The flattened page numbers of a list of chunks (same comprehension shape
as `allBoxes`). -/
def allPages (cs : List Chunk) : List Int :=
  cs.foldr (fun c acc => (c.pages.getD []) ++ acc) []

/-- `Chunk.merge` from `src/models.py` (lines 103-162).  The `isinstance`
check on `others` is vacuously true in the typed embedding; the
optional-property check only logs a warning, so it has no effect here.
`min(chunk.id for chunk in all_chunks)` over the non-empty list
`self :: others` is the left fold of `min` starting at `self.id`. -/
def Chunk.merge (self : Chunk) (others : List Chunk)
    (text_separator : String := " ") : Except String Chunk :=
  if others.isEmpty then .ok self
  else if checkIncompatibleProperties self others ≠ [] then
    .error "ValueError: properties of chunks being merged must be either all None or all not None"
  else
    let all_chunks := self :: others
    let all_texts := all_chunks.map Chunk.text
    let combined_bounding_boxes : Option (List BBox) :=
      match self.bounding_boxes with
      | none => none
      | some _ => some (allBoxes all_chunks)
    let combined_pages : Option (List Int) :=
      match self.pages with
      | none => none
      | some _ => some (allPages all_chunks)
    chunkNew
      ((others.map Chunk.id).foldl min self.id)
      (String.intercalate text_separator all_texts)
      self.chunk_type
      combined_bounding_boxes
      combined_pages

/-- Every chunk in the list has both `bounding_boxes` and `pages` present. -/
def allPresent (cs : List Chunk) : Prop :=
  ∀ c ∈ cs, c.bounding_boxes.isSome ∧ c.pages.isSome

/-- A text block of a parser output (external `cpr_sdk` input schema, spec
§6): a block type, rendered text (`to_string()`), and -- for page-based
(`PDFTextBlock`) sources -- a coordinate polygon and a page number. -/
inductive TextBlock where
  | pdf (btype : BlockType) (btext : String) (coords : List (ℚ × ℚ))
      (page : Int)
  | html (btype : BlockType) (btext : String)

namespace TextBlock

def btype : TextBlock → BlockType
  | .pdf ty _ _ _ => ty
  | .html ty _ => ty

def btext : TextBlock → String
  | .pdf _ t _ _ => t
  | .html _ t => t

/-- `isinstance(text_block, PDFTextBlock)`. -/
def isPdf : TextBlock → Bool
  | .pdf _ _ _ _ => true
  | .html _ _ => false

end TextBlock

/-- The `bounding_boxes` argument built in `parser_output_to_chunks`:
`[text_block.coords] if isinstance(text_block, PDFTextBlock) and
text_block.coords else None` (an empty/absent coords list is falsy). -/
def blockBoxes : TextBlock → Option (List BBox)
  | .pdf _ _ coords _ => if coords.isEmpty then none else some [coords]
  | .html _ _ => none

/-- The `pages` argument built in `parser_output_to_chunks`:
`[text_block.page_number] if isinstance(text_block, PDFTextBlock) else
None`. -/
def blockPages : TextBlock → Option (List Int)
  | .pdf _ _ _ page => some [page]
  | .html _ _ => none

/-- The pydantic constructor exactly as called at `src/pipeline.py` line 20:
`Chunk(idx=idx, text=..., chunk_type=..., bounding_boxes=..., pages=...)`.
The model (`src/models.py` line 32) declares the field `id` with no alias,
no `model_config` and no custom `__init__`, so pydantic v2 ignores the
unknown `idx` keyword and reports the required field `id` as missing:
construction raises `ValidationError` for every argument combination. -/
def chunkNewIdxKeyword (_idx : Nat) (_text : String) (_ty : BlockType)
    (_bbs : Option (List BBox)) (_pgs : Option (List Int)) :
    Except String Chunk :=
  .error "ValidationError: id Field required"

/-- The chunk-building comprehension of `parser_output_to_chunks`, with the
running `enumerate` index `idx`; each iteration performs the
`Chunk(idx=idx, ...)` construction of line 20 (which raises, see
`chunkNewIdxKeyword`). -/
def parserChunksGo (idx : Nat) : List TextBlock → Except String (List Chunk)
  | [] => .ok []
  | b :: rest => do
      let c ← chunkNewIdxKeyword idx b.btext b.btype (blockBoxes b)
        (blockPages b)
      let cs ← parserChunksGo (idx + 1) rest
      .ok (c :: cs)

/-- `parser_output_to_chunks` from `src/pipeline.py` (lines 13-33): an empty
(or missing) text-block list yields `[]`; otherwise text blocks are converted
1:1 into chunks. -/
def parser_output_to_chunks (blocks : List TextBlock) :
    Except String (List Chunk) :=
  if blocks.isEmpty then .ok [] else parserChunksGo 0 blocks

/-- `filter_and_warn_for_unknown_types` from `src/utils.py` (lines 16-37).
The loop iterates over `set(types)` calling `BlockType(_type)` inside
`try ... except NameError`.  On an unknown type string `BlockType(...)`
raises `ValueError`, which the `except NameError` clause does not catch, so
the exception propagates out of the function; when every string is a known
block-type value no exception occurs, `types_to_remove` stays empty, and the
input list is returned unchanged. -/
def filter_and_warn_for_unknown_types (types : List String) :
    Except String (List String) :=
  if types.any (fun t => (BlockType.ofString t).isNone) then
    .error "ValueError: is not a valid BlockType"
  else
    .ok types

/-- `ChunkTypeFilter.__init__` (src/chunk_processors.py lines 31-38): the
configured removal set is computed by `filter_and_warn_for_unknown_types`,
so an unknown string propagates its `ValueError` out of the constructor. -/
def chunkTypeFilterInit (types_to_remove : List String) :
    Except String (List String) :=
  filter_and_warn_for_unknown_types types_to_remove

/-- Configuration of `RemoveRepeatedAdjacentChunks` (src/chunk_processors.py
lines 82-108), with the source's defaults. -/
structure RemoveRepeatedAdjacentChunks where
  chunk_types : List BlockType :=
    [.SECTION_HEADING, .TITLE, .PAGE_HEADER, .PAGE_FOOTER, .FOOT_NOTE]
  ignore_case : Bool := true

/-- Update of the per-type tracking dict `current_chunk_of_type`. -/
def trackUpdate (s : BlockType → Option String) (ty : BlockType)
    (t : String) : BlockType → Option String :=
  fun ty' => if ty' = ty then some t else s ty'

/-- The loop of `RemoveRepeatedAdjacentChunks.__call__` (lines 110-138): the
tracking dict holds, per tracked type, the text of the most recently kept
chunk of that type (`None` before the first occurrence; the dict is only
consulted for tracked types, so a total function with `none` default is
faithful).  Python's `str.lower()` is modelled by `String.toLower`. -/
def rracGo (cfg : RemoveRepeatedAdjacentChunks)
    (s : BlockType → Option String) : List Chunk → List Chunk
  | [] => []
  | c :: rest =>
    if c.chunk_type ∈ cfg.chunk_types then
      let chunk_text := if cfg.ignore_case then c.text.toLower else c.text
      match s c.chunk_type with
      | none =>
        c :: rracGo cfg (trackUpdate s c.chunk_type chunk_text) rest
      | some matched_text =>
        if matched_text ≠ chunk_text then
          c :: rracGo cfg (trackUpdate s c.chunk_type chunk_text) rest
        else
          rracGo cfg s rest
    else
      c :: rracGo cfg s rest

/-- `RemoveRepeatedAdjacentChunks.__call__`: the dict starts with `None` for
every tracked type. -/
def RemoveRepeatedAdjacentChunks.call (cfg : RemoveRepeatedAdjacentChunks)
    (chunks : List Chunk) : List Chunk :=
  rracGo cfg (fun _ => none) chunks

/-- Python `re.match(f"^{pattern}$", text, flags)` for a *literal* pattern
(no regex metacharacters), as called in `RemoveRegexPattern.__call__` line
217: the anchored pattern matches exactly the pattern text, or the pattern
text followed by one trailing newline (`$` also matches just before a final
newline); comparison is case-folded under `re.IGNORECASE`. -/
def pyFullMatchLit (pattern text : String) (ignore_case : Bool) : Bool :=
  let norm := fun s : String => if ignore_case then s.toLower else s
  norm text == norm pattern || norm text == norm (pattern ++ "\n")

/-- Decrement an optional replacement budget (`none` = unlimited). -/
def decrBudget : Option Nat → Option Nat
  | none => none
  | some n => some (n - 1)

/-- Left-to-right non-overlapping replacement of a non-empty literal pattern
`p` by `repl` in `s`, stopping when the budget reaches zero (`none` =
unlimited).  `fuel` only drives termination (callers pass `s.length`, which
suffices: every step consumes at least one character of `s`). -/
def pySubLitAux (p repl : List Char) :
    Nat → Option Nat → List Char → List Char
  | _, _, [] => []
  | 0, _, s => s
  | Nat.succ fuel, budget, c :: tail =>
    if budget = some 0 then c :: tail
    else if ¬p.isEmpty ∧ p.isPrefixOf (c :: tail) then
      repl ++ pySubLitAux p repl fuel (decrBudget budget)
        ((c :: tail).drop p.length)
    else
      c :: pySubLitAux p repl fuel budget tail

/-- Python `re.sub(p, repl, s, count)` for a non-empty literal pattern:
`count = 0` means unlimited, otherwise at most `count` replacements.
(The zero-width matching of an empty pattern is not modelled; every pattern
in the source is non-empty.)  NOTE: the source passes
`re.IGNORECASE if self.ignore_case else 0` as the *positional `count`*
argument of `re.sub` (its 4th parameter), and `re.IGNORECASE == 2`, so
`ignore_case=True` produces at most two case-sensitive replacements rather
than unlimited case-insensitive ones. -/
def pySubLit (p repl s : String) (count : Nat) : String :=
  String.mk (pySubLitAux p.data repl.data s.data.length
    (if count = 0 then none else some count) s.data)

/-- Python `str.strip()`: remove leading and trailing whitespace
(`Char.isWhitespace` models Python's whitespace class). -/
def pyStrip (s : String) : String :=
  String.mk
    (((s.data.dropWhile Char.isWhitespace).reverse.dropWhile
      Char.isWhitespace).reverse)

/-- `RemoveRegexPattern` configuration (src/chunk_processors.py lines
180-204), for literal patterns.  `chunk_types = []` models
`self.chunk_types = chunk_types or None` (no type restriction). -/
structure RemoveRegexPattern where
  pattern : String
  replace_with : String := " "
  skip_partial_replacements : Bool := false
  chunk_types : List BlockType := []
  ignore_case : Bool := false

/-- The loop of `RemoveRegexPattern.__call__` (lines 206-241): pass through
chunks of unconfigured types; drop a chunk whose whole text matches the
anchored pattern; with `skip_partial_replacements` keep the chunk unchanged;
otherwise substitute (with the count/flags confusion noted at `pySubLit`),
strip, drop if empty, else emit a copy carrying the new text. -/
def rrpGo (cfg : RemoveRegexPattern) : List Chunk → List Chunk
  | [] => []
  | c :: rest =>
    if ¬cfg.chunk_types.isEmpty ∧ c.chunk_type ∉ cfg.chunk_types then
      c :: rrpGo cfg rest
    else if pyFullMatchLit cfg.pattern c.text cfg.ignore_case then
      rrpGo cfg rest
    else if cfg.skip_partial_replacements then
      c :: rrpGo cfg rest
    else
      let new_text := pyStrip (pySubLit cfg.pattern cfg.replace_with c.text
        (if cfg.ignore_case then 2 else 0))
      if new_text.isEmpty then rrpGo cfg rest
      else c.withText new_text :: rrpGo cfg rest

/-- A chunk object under reference semantics, for observing in-place
mutation: the `heading` field holds a reference (an index into the object
store) as the Python attribute holds an object reference.  Only the fields
`AddHeadings` reads or writes are carried. -/
structure ChunkCell where
  id : Nat
  text : String
  chunk_type : BlockType
  heading : Option Nat
  deriving DecidableEq

/-- `self.heading_types` of `AddHeadings.__init__`. -/
def headingTypes : List BlockType := [.TITLE, .TITLE_LOWER_CASE]

/-- `self.subheading_types` of `AddHeadings.__init__`. -/
def subheadingTypes : List BlockType := [.SECTION_HEADING, .PAGE_HEADER]

/-- Reference-semantics translation of the loop of `AddHeadings.__call__`
(lines 154-177).  `new_chunks = list(chunks)` copies only the list, so the
loop iterates over (and assigns `chunk.heading` on) the very objects of the
input list; the store is the input list of objects, indices are the
references, and `chunk.heading = ...` is a store update at index `i`. -/
def ahsGo (fuel : Nat) (store : List ChunkCell) (i : Nat)
    (curH curS : Option Nat) : List ChunkCell :=
  match fuel with
  | 0 => store
  | fuel + 1 =>
    if h : i < store.length then
      let c := store.get ⟨i, h⟩
      if c.chunk_type ∈ headingTypes then
        ahsGo fuel store (i + 1) (some i) none
      else if c.chunk_type ∈ subheadingTypes then
        ahsGo fuel (store.set i { c with heading := curH }) (i + 1) curH
          (some i)
      else
        ahsGo fuel (store.set i
          { c with
            heading := match curS with | some s => some s | none => curH })
          (i + 1) curH curS
    else store

/-- `AddHeadings.__call__` under reference semantics: the final store (the
state of the input objects after the call; the returned list references
exactly these objects at the same indices).  The fuel `store.length` covers
every loop iteration (`set` preserves length, the index advances by one per
step). -/
def addHeadingsStore (store : List ChunkCell) : List ChunkCell :=
  ahsGo store.length store 0 none none

/-- Value-semantics translation of `AddHeadings.__call__`.  It yields the
same observable output trees as `addHeadingsStore` because a subheading's
own `heading` is assigned before the subheading is ever referenced by a
later chunk, heading-type chunks are never written after being referenced,
and no object is written twice. -/
def addHeadings (curH curS : Option Chunk) : List Chunk → List Chunk
  | [] => []
  | c :: rest =>
    if c.chunk_type ∈ headingTypes then
      c :: addHeadings (some c) none rest
    else if c.chunk_type ∈ subheadingTypes then
      c.withHeading curH :: addHeadings curH (some (c.withHeading curH)) rest
    else
      (c.withHeading (match curS with | some s => some s | none => curH))
        :: addHeadings curH curS rest

/-- `AddHeadings.__call__`: both pieces of state start unset. -/
def AddHeadings.call (chunks : List Chunk) : List Chunk :=
  addHeadings none none chunks

/-- The number of hops obtained by following `heading` references from a
chunk (value semantics: reference chains are finite trees). -/
def headingDepth : Chunk → Nat
  | .mk _ _ _ none _ _ _ _ => 0
  | .mk _ _ _ (some h) _ _ _ _ => headingDepth h + 1

/-! ### SplitTextIntoSentencesBasic (src/chunk_processors.py lines 493-673)

The regex machinery the splitter calls is translated operation by
operation: the two protected-token passes of `_extract_complete_sentences`
(decimal/version numbers, then the fixed abbreviation list, each reversibly
replaced via positional placeholders), the terminal-punctuation sentence
regex, and the Python string primitives (`str.find`, slicing, `str.replace`)
used to compute the carried-over remainder. -/

/-- Python `str.replace(pat, repl)` (all occurrences, leftmost,
non-overlapping). -/
def strReplaceAll (s pat repl : String) : String :=
  String.mk (pySubLitAux pat.data repl.data s.data.length none s.data)

/-- Leading digit-run length (`\d+` greedily). -/
def digitRun (l : List Char) : Nat :=
  (l.takeWhile Char.isDigit).length

/-- Total length consumed by the greedy repetition `(\.\d+)+` (zero if no
complete `.digits` group follows). -/
def dotGroupsLen (fuel : Nat) (l : List Char) : Nat :=
  match fuel, l with
  | 0, _ => 0
  | fuel + 1, '.' :: rest =>
    let d := digitRun rest
    if d = 0 then 0 else 1 + d + dotGroupsLen fuel (rest.drop d)
  | _ + 1, _ => 0

/-- Length matched by `\d+(\.\d+)+` at the head of `l` (the shared core of
both alternatives of the number pattern), if any. -/
def matchNumCore (l : List Char) : Option Nat :=
  let d := digitRun l
  if d = 0 then none
  else
    let g := dotGroupsLen l.length (l.drop d)
    if g = 0 then none else some (d + g)

/-- Length matched at the head of `l` by the number pattern
`\d+(\.\d+)+%?|v?\d+(\.\d+)+`: the first alternative (with its optional `%`)
is preferred, the second adds an optional leading `v`. -/
def matchNumAt (l : List Char) : Option Nat :=
  match matchNumCore l with
  | some n =>
    match l.drop n with
    | '%' :: _ => some (n + 1)
    | _ => some n
  | none =>
    match l with
    | 'v' :: rest => (matchNumCore rest).map (· + 1)
    | _ => none

/-- `re.finditer` scan for the number pattern: leftmost, non-overlapping;
returns `(start, length)` in match order.  `pos` is the absolute position of
the head of `l`; the fuel (callers pass the list length) covers every step
because each step consumes at least one character. -/
def numFindAux (fuel : Nat) (l : List Char) (pos : Nat) : List (Nat × Nat) :=
  match fuel, l with
  | 0, _ => []
  | _, [] => []
  | fuel + 1, c :: tail =>
    match matchNumAt (c :: tail) with
    | some n => (pos, n) :: numFindAux fuel ((c :: tail).drop n) (pos + n)
    | none => numFindAux fuel tail (pos + 1)

/-- Replace the spans `(start, length, placeholder)` (absolute positions,
ascending, non-overlapping) inside `l`: the forward splice equals the
source's reversed in-place replacements. -/
def spliceAux (fuel : Nat) (l : List Char) (pos : Nat)
    (ms : List (Nat × Nat × List Char)) : List Char :=
  match fuel, l, ms with
  | _, l, [] => l
  | 0, l, _ => l
  | _ + 1, [], _ => []
  | fuel + 1, c :: tail, (st, n, ph) :: mrest =>
    if pos = st then ph ++ spliceAux fuel ((c :: tail).drop n) (pos + n) mrest
    else c :: spliceAux fuel tail (pos + 1) ((st, n, ph) :: mrest)

/-- The fixed abbreviation list of `SplitTextIntoSentencesBasic.__init__`
(each regex source escapes only its dots, so the matched text is the literal
string). -/
def commonAbbreviations : List String :=
  ["et al.", "etc.", "i.e.", "e.g.", "vs.", "Mr.", "Mrs.", "Dr.", "Prof.",
   "Inc.", "Ltd.", "Co.", "Jr.", "Sr.", "St.", "Ave.", "Blvd.", "Rd.",
   "Ph.D.", "M.D."]

/-- The negative lookahead `(?![A-Z])`: the next character (if any) is not
an ASCII capital letter. -/
def notUpperNext (l : List Char) : Bool :=
  match l with
  | [] => true
  | c :: _ => !('A' ≤ c && c ≤ 'Z')

/-- `re.finditer` scan for `abbr(?![A-Z])` with a literal `abbr`: start
positions of the leftmost non-overlapping matches. -/
def abbrStarts (fuel : Nat) (l : List Char) (pos : Nat) (abbr : List Char) :
    List Nat :=
  match fuel, l with
  | 0, _ => []
  | _, [] => []
  | fuel + 1, c :: tail =>
    if abbr.isPrefixOf (c :: tail) ∧ ¬abbr.isEmpty
        ∧ notUpperNext ((c :: tail).drop abbr.length) then
      pos :: abbrStarts fuel ((c :: tail).drop abbr.length)
        (pos + abbr.length) abbr
    else
      abbrStarts fuel tail (pos + 1) abbr

/-- The abbreviation pass of `_extract_complete_sentences`: for each
abbreviation `i` in order, replace its matches in the current modified text
by the placeholder `__ABBR_i__` and record the placeholder in the map (the
dict assigns the same key once per abbreviation; the value, the matched
text, is the abbreviation itself). -/
def abbrFold (l : List Char) : List Char × List (String × String) :=
  commonAbbreviations.enum.foldl
    (fun acc p =>
      let ab := p.2.data
      let ph := "__ABBR_" ++ toString p.1 ++ "__"
      let starts := abbrStarts acc.1.length acc.1 0 ab
      if starts.isEmpty then acc
      else
        (spliceAux acc.1.length acc.1 0
          (starts.map fun st => (st, ab.length, ph.data)),
         acc.2 ++ [(ph, p.2)]))
    (l, [])

/-- Membership of a character in the terminal-punctuation class `[.!?…]`. -/
def isTerminal (c : Char) : Bool :=
  c = '.' || c = '!' || c = '?' || c = '…'

/-- `findall` for the sentence pattern `[^.!?…]+[.!?…]+(?=\s|\Z)`: a match
is a maximal run of non-terminal characters followed by a maximal run of
terminal characters, accepted only when followed by whitespace or the end of
the text; on a failed lookahead the scan resumes after the runs (no shorter
match can start inside them, and character-by-character advancement skips
exactly that region). -/
def sentFindAux (fuel : Nat) (l : List Char) : List (List Char) :=
  match fuel, l with
  | 0, _ => []
  | _, [] => []
  | fuel + 1, c :: tail =>
    if isTerminal c then sentFindAux fuel tail
    else
      let nonterm := (c :: tail).takeWhile (fun x => !isTerminal x)
      let after := (c :: tail).drop nonterm.length
      let term := after.takeWhile isTerminal
      if term.isEmpty then []
      else
        let rest := after.drop term.length
        match rest with
        | [] => [nonterm ++ term]
        | c2 :: _ =>
          if c2.isWhitespace then
            (nonterm ++ term) :: sentFindAux fuel rest
          else
            sentFindAux fuel rest

/-- `_extract_complete_sentences` of `SplitTextIntoSentencesBasic` (lines
614-673): protect number tokens, then abbreviations, find the terminal-
punctuation sentences, strip and keep the non-empty ones, then restore the
placeholders (dict iteration order: number placeholders in reversed match
order, then abbreviation placeholders) and turn internal newlines into
spaces. -/
def extractCompleteSentences (text : String) : List String :=
  let l := text.data
  let numMatches := numFindAux l.length l 0
  let numMap := numMatches.reverse.map
    (fun p => ("__NUM_" ++ toString p.1 ++ "__",
      String.mk ((l.drop p.1).take p.2)))
  let text1 := spliceAux l.length l 0
    (numMatches.map fun p =>
      (p.1, p.2, ("__NUM_" ++ toString p.1 ++ "__").data))
  let fold := abbrFold text1
  let phMap := numMap ++ fold.2
  let sentences :=
    ((sentFindAux fold.1.length fold.1).map
      (fun s => pyStrip (String.mk s))).filter (fun s => !s.isEmpty)
  sentences.map (fun s =>
    strReplaceAll
      (phMap.foldl (fun acc q => strReplaceAll acc q.1 q.2) s) "\n" " ")

/-- Python `str.find` on character lists: index of the leftmost occurrence,
`-1` when absent (the empty pattern is found at 0). -/
def pyFindAux (fuel : Nat) (l sub : List Char) (pos : Nat) : Int :=
  match fuel with
  | 0 => -1
  | fuel + 1 =>
    if sub.isPrefixOf l then (pos : Int)
    else
      match l with
      | [] => -1
      | _ :: t => pyFindAux fuel t sub (pos + 1)

def pyFind (l sub : List Char) : Int :=
  pyFindAux (l.length + 1) l sub 0

/-- Python slicing `s[:i]` (negative indices count from the end, clamped). -/
def pySliceTo (l : List Char) (i : Int) : List Char :=
  let j := if i < 0 then (l.length : Int) + i else i
  l.take (max 0 j).toNat

/-- Python slicing `s[i:]`. -/
def pySliceFrom (l : List Char) (i : Int) : List Char :=
  let j := if i < 0 then (l.length : Int) + i else i
  l.drop (max 0 j).toNat

/-- The remainder loop of `__call__` (lines 581-587): for each extracted
sentence in order, locate it with `str.find`, excise
`remaining[:start] + remaining[start+len:]` (Python slicing semantics, so a
`-1` from `find` wraps around exactly as in the source) and strip. -/
def removeSentences (text : String) (sentences : List String) : String :=
  sentences.foldl
    (fun acc s =>
      let start := pyFind acc.data s.data
      pyStrip (String.mk
        (pySliceTo acc.data start
          ++ pySliceFrom acc.data (start + (s.data.length : Int)))))
    text

/-- The loop of `SplitTextIntoSentencesBasic.__call__` (lines 543-612),
threading `incomplete_chunk` and `skipped_chunk_buffer`; the merge of the
carried chunk with the incoming one can raise, hence `Except`.  On TEXT
chunks the buffered ignored chunks are emitted *before* the extracted
sentences only when no partial sentence was underway; after processing, any
still-buffered ignored chunks are appended (and the buffer cleared). -/
def splitGo (ignoreTypes : List BlockType) (incomplete : Option Chunk)
    (buffer : List Chunk) : List Chunk → Except String (List Chunk)
  | [] =>
    .ok ((match incomplete with | some ic => [ic] | none => []) ++ buffer)
  | c :: rest =>
    if c.chunk_type ∈ ignoreTypes then
      splitGo ignoreTypes incomplete (buffer ++ [c]) rest
    else if c.chunk_type ≠ BlockType.TEXT then do
      let out ← splitGo ignoreTypes none [] rest
      .ok ((match incomplete with | some ic => [ic] | none => [])
        ++ [c] ++ buffer ++ out)
    else
      match incomplete with
      | some ic => do
        let merged ← ic.merge [c] " "
        let text := pyStrip (ic.text ++ " " ++ c.text)
        let current := merged.withText text
        let sentences := extractCompleteSentences text
        let remaining := removeSentences text sentences
        let newIncomplete :=
          if remaining.isEmpty then none else some (current.withText remaining)
        let out ← splitGo ignoreTypes newIncomplete [] rest
        .ok (sentences.map (fun s => current.withText s) ++ buffer ++ out)
      | none => do
        let text := c.text
        let current := c
        let sentences := extractCompleteSentences text
        let remaining := removeSentences text sentences
        let newIncomplete :=
          if remaining.isEmpty then none else some (current.withText remaining)
        let out ← splitGo ignoreTypes newIncomplete [] rest
        .ok (buffer ++ sentences.map (fun s => current.withText s) ++ out)

/-- `SplitTextIntoSentencesBasic.__call__`, given the configured ignore
set. -/
def SplitTextIntoSentencesBasic.call (ignoreTypes : List BlockType)
    (chunks : List Chunk) : Except String (List Chunk) :=
  splitGo ignoreTypes none [] chunks

end NavDoc

namespace NavDoc

/-! ## Theorems -/

/-- C10 -- Merging a chunk with an empty list of others returns the receiver
itself unchanged: no validation runs and no field is dropped or altered; the
empty list is a right identity for `merge`. -/
theorem merge_empty_is_identity (c : Chunk) (sep : String) :
    c.merge [] sep = .ok c := by
  simp [Chunk.merge]

lemma allBoxes_length (cs : List Chunk) :
    (allBoxes cs).length
      = (cs.map (fun c => (c.bounding_boxes.getD []).length)).sum := by
  induction cs with
  | nil => rfl
  | cons c rest ih => simp [allBoxes, List.foldr] at ih ⊢; omega

lemma allPages_length (cs : List Chunk) :
    (allPages cs).length
      = (cs.map (fun c => (c.pages.getD []).length)).sum := by
  induction cs with
  | nil => rfl
  | cons c rest ih => simp [allPages, List.foldr] at ih ⊢; omega

lemma allBoxes_valid (cs : List Chunk)
    (h : ∀ c ∈ cs, validBoxes c.bounding_boxes = true) :
    (allBoxes cs).all validBox = true := by
  induction cs with
  | nil => rfl
  | cons c rest ih =>
    have hc := h c (by simp)
    have hrest := ih (fun c' hc' => h c' (by simp [hc']))
    simp only [allBoxes, List.foldr] at hrest ⊢
    rw [List.all_append, Bool.and_eq_true]
    refine And.intro ?_ hrest
    cases hbb : c.bounding_boxes with
    | none => simp [Option.getD]
    | some l => simpa [validBoxes, hbb] using hc

/-- C3 -- Merge invariants: with a non-empty list of others, (a) if the
nullability of `bounding_boxes` or of `pages` differs between the receiver and
any other chunk, `merge` raises a `ValueError`; (b) if every chunk being
merged has both `bounding_boxes` and `pages` present (and its boxes satisfy
the constructor's validity invariant, which holds of every constructed
chunk), the merge succeeds and the result's `bounding_boxes`/`pages` are the
inputs' lists concatenated in order, of length exactly the sum of the input
lengths. -/
theorem merge_invariants (self : Chunk) (others : List Chunk) (sep : String)
    (hne : others ≠ []) :
    ((∃ c ∈ others, c.bounding_boxes.isNone ≠ self.bounding_boxes.isNone ∨
        c.pages.isNone ≠ self.pages.isNone) →
      ∃ e, self.merge others sep = .error e)
    ∧
    (allPresent (self :: others) →
      (∀ c ∈ self :: others, validBoxes c.bounding_boxes = true) →
      ∃ m, self.merge others sep = .ok m ∧
        m.bounding_boxes = some (allBoxes (self :: others)) ∧
        m.pages = some (allPages (self :: others)) ∧
        (allBoxes (self :: others)).length
          = ((self :: others).map
              (fun c => (c.bounding_boxes.getD []).length)).sum ∧
        (allPages (self :: others)).length
          = ((self :: others).map (fun c => (c.pages.getD []).length)).sum) := by
  have hempty : others.isEmpty = false := by
    cases others with
    | nil => exact absurd rfl hne
    | cons _ _ => rfl
  constructor
  · rintro ⟨c, hc, hmis⟩
    have hcheck : checkIncompatibleProperties self others ≠ [] := by
      unfold checkIncompatibleProperties
      intro hcontra
      rcases List.append_eq_nil.mp hcontra with ⟨hL, hR⟩
      rcases hmis with hbb | hpg
      · have hany : (others.any
            fun c => decide
              (c.bounding_boxes.isNone ≠ self.bounding_boxes.isNone)) = true :=
          List.any_eq_true.mpr ⟨c, hc, by simpa using hbb⟩
        rw [if_pos hany] at hL
        cases hL
      · have hany : (others.any
            fun c => decide (c.pages.isNone ≠ self.pages.isNone)) = true :=
          List.any_eq_true.mpr ⟨c, hc, by simpa using hpg⟩
        rw [if_pos hany] at hR
        cases hR
    refine ⟨"ValueError: properties of chunks being merged must be either all None or all not None", ?_⟩
    unfold Chunk.merge
    rw [hempty]
    simp [hcheck]
  · intro hpres hvalid
    have hselfbb : self.bounding_boxes.isSome := (hpres self (by simp)).1
    have hselfpg : self.pages.isSome := (hpres self (by simp)).2
    obtain ⟨bbs0, hbbs0⟩ := Option.isSome_iff_exists.mp hselfbb
    obtain ⟨pgs0, hpgs0⟩ := Option.isSome_iff_exists.mp hselfpg
    have hcheck : checkIncompatibleProperties self others = [] := by
      unfold checkIncompatibleProperties
      have h1 : (others.any
          fun c => decide
            (c.bounding_boxes.isNone ≠ self.bounding_boxes.isNone)) = false := by
        rw [List.any_eq_false]
        intro c hc
        obtain ⟨x, hx⟩ := Option.isSome_iff_exists.mp (hpres c (by simp [hc])).1
        simp [hx, hbbs0]
      have h2 : (others.any
          fun c => decide (c.pages.isNone ≠ self.pages.isNone)) = false := by
        rw [List.any_eq_false]
        intro c hc
        obtain ⟨x, hx⟩ := Option.isSome_iff_exists.mp (hpres c (by simp [hc])).2
        simp [hx, hpgs0]
      simp only [h1, h2, Bool.false_eq_true, if_false, List.append_nil]
    obtain ⟨bbs, hbbs⟩ := Option.isSome_iff_exists.mp hselfbb
    obtain ⟨pgs, hpgs⟩ := Option.isSome_iff_exists.mp hselfpg
    have hvalidall : (allBoxes (self :: others)).all validBox = true :=
      allBoxes_valid _ hvalid
    refine ⟨.mk ((others.map Chunk.id).foldl min self.id)
        (String.intercalate sep ((self :: others).map Chunk.text))
        self.chunk_type none
        (some (allBoxes (self :: others)))
        (some (allPages (self :: others))) none none, ?_, rfl, rfl,
        allBoxes_length _, allPages_length _⟩
    unfold Chunk.merge
    rw [hempty]
    simp only [ne_eq, hcheck, not_true_eq_false, if_false, ite_false,
      Bool.false_eq_true, hbbs, hpgs]
    unfold chunkNew
    simp [validBoxes, hvalidall]

/-- Closed witness for C3: a concrete nullability mismatch raises, and a
concrete all-present merge concatenates boxes and pages. -/
theorem merge_invariants_witness :
    (∃ e, (Chunk.mk 0 "a" .TEXT none
        (some [[(0, 0), (1, 0), (1, 1), (0, 1)]]) (some [1]) none none).merge
        [Chunk.mk 1 "b" .TEXT none none (some [2]) none none] " "
          = .error e)
    ∧
    (∃ m, (Chunk.mk 0 "a" .TEXT none
        (some [[(0, 0), (1, 0), (1, 1), (0, 1)]]) (some [1]) none none).merge
        [Chunk.mk 2 "b" .TEXT none
          (some [[(2, 2), (3, 2), (3, 3), (2, 3)]]) (some [2]) none none] " "
          = .ok m ∧
        m.bounding_boxes = some [[(0, 0), (1, 0), (1, 1), (0, 1)],
          [(2, 2), (3, 2), (3, 3), (2, 3)]] ∧
        m.pages = some [1, 2]) := by
  constructor
  · exact (merge_invariants _ _ " " (by simp)).1
      ⟨Chunk.mk 1 "b" .TEXT none none (some [2]) none none, by simp,
        Or.inl (by decide)⟩
  · obtain ⟨m, hm, hbb, hpg, -, -⟩ :=
      (merge_invariants
        (Chunk.mk 0 "a" .TEXT none
          (some [[(0, 0), (1, 0), (1, 1), (0, 1)]]) (some [1]) none none)
        [Chunk.mk 2 "b" .TEXT none
          (some [[(2, 2), (3, 2), (3, 3), (2, 3)]]) (some [2]) none none]
        " " (by simp)).2
      (by intro c hc; simp only [List.mem_cons, List.mem_singleton,
            List.not_mem_nil, or_false] at hc
          rcases hc with rfl | rfl <;> exact ⟨rfl, rfl⟩)
      (by intro c hc; simp only [List.mem_cons, List.mem_singleton,
            List.not_mem_nil, or_false] at hc
          rcases hc with rfl | rfl <;> decide)
    exact ⟨m, hm, by rw [hbb]; rfl, by rw [hpg]; rfl⟩

/-- C6 counterexample -- the claim says the merged id equals the receiver's
id; merging receiver id 5 with another chunk of id 3 yields id 3. -/
theorem merge_id_receiver_counterexample :
    (Chunk.mk 5 "x" .TEXT none none none none none).merge
      [Chunk.mk 3 "y" .TEXT none none none none none] " "
      = .ok (Chunk.mk 3 "x y" .TEXT none none none none none)
    ∧ (Chunk.mk 3 "x y" .TEXT none none none none none).id
        ≠ (Chunk.mk 5 "x" .TEXT none none none none none).id := by
  exact ⟨rfl, by decide⟩

/-- C6 (amended) -- for every merge that succeeds, the merged chunk's id is
the minimum of all the input chunks' ids (Python's
`min(chunk.id for chunk in all_chunks)`), not the receiver's id. -/
theorem merge_id_is_min (self : Chunk) (others : List Chunk) (sep : String)
    (m : Chunk) (h : self.merge others sep = .ok m) :
    m.id = (others.map Chunk.id).foldl min self.id := by
  unfold Chunk.merge at h
  by_cases hemp : others.isEmpty
  · rw [hemp] at h
    simp only [if_true] at h
    cases h
    cases others with
    | nil => rfl
    | cons _ _ => simp [List.isEmpty] at hemp
  · rw [Bool.not_eq_true] at hemp
    rw [hemp] at h
    simp only [Bool.false_eq_true, if_false] at h
    by_cases hcheck : checkIncompatibleProperties self others = []
    · simp only [ne_eq, hcheck, not_true_eq_false, if_false, ite_false] at h
      unfold chunkNew at h
      by_cases hv : validBoxes (match self.bounding_boxes with
        | none => none
        | some _ => some (allBoxes (self :: others))) = true
      · rw [if_pos hv] at h
        cases h
        rfl
      · rw [if_neg hv] at h
        cases h
    · simp [hcheck] at h

/-- Closed witness for C6's amended theorem at a concrete successful merge. -/
theorem merge_id_is_min_witness :
    (Chunk.mk 3 "x y" .TEXT none none none none none).id
      = ([Chunk.mk 3 "y" .TEXT none none none none none].map Chunk.id).foldl
          min (Chunk.mk 5 "x" .TEXT none none none none none).id :=
  merge_id_is_min _ _ " " _ rfl

/-- C1 -- the claim (like the spec and the repository's own tests, which
construct chunks with the `idx=` keyword) says the conversion step produces
one chunk per text block with id = block order index.  The code cannot:
`src/pipeline.py` line 20 calls `Chunk(idx=idx, ...)` while the pydantic
model declares the field `id` with no alias, so the first construction
raises `ValidationError` (missing required `id`) and `parser_output_to_chunks`
raises on every document with a non-empty text-block list, producing no
chunks at all. -/
theorem parser_output_to_chunks_raises (blocks : List TextBlock)
    (hne : blocks ≠ []) :
    parser_output_to_chunks blocks
      = .error "ValidationError: id Field required" := by
  cases blocks with
  | nil => exact absurd rfl hne
  | cons b rest => rfl

/-- Closed witness for C1's evaluation: a one-block document raises. -/
theorem parser_output_to_chunks_raises_witness :
    parser_output_to_chunks [.html .TEXT "hello"]
      = .error "ValidationError: id Field required" :=
  parser_output_to_chunks_raises _ (by simp)

/-- C2 -- the claim says a type filter constructed over a list containing an
unknown chunk-type string removes that string with a warning and never
raises.  The code catches `NameError`, but the Python enum constructor
`BlockType(...)` raises `ValueError` on an unknown value, so the
`ChunkTypeFilter` constructor in fact raises: this evaluation shows the
`ValueError` propagating for a configured list holding one unknown string. -/
theorem chunk_type_filter_unknown_type_raises :
    chunkTypeFilterInit ["pageNumber", "notARealBlockType"]
      = .error "ValueError: is not a valid BlockType"
    ∧ (BlockType.ofString "notARealBlockType").isNone = true
    ∧ (BlockType.ofString "pageNumber").isSome = true := by
  refine ⟨?_, by decide, by decide⟩
  rfl

lemma rracGo_idem (cfg : RemoveRepeatedAdjacentChunks)
    (chunks : List Chunk) :
    ∀ s, rracGo cfg s (rracGo cfg s chunks) = rracGo cfg s chunks := by
  induction chunks with
  | nil => intro s; rfl
  | cons c rest ih =>
    intro s
    by_cases hmem : c.chunk_type ∈ cfg.chunk_types
    · rw [rracGo, if_pos hmem]
      cases hs : s c.chunk_type with
      | none =>
        simp only []
        rw [rracGo, if_pos hmem, hs]
        simp only []
        rw [ih]
      | some matched_text =>
        simp only []
        by_cases hne : matched_text ≠
            (if cfg.ignore_case then c.text.toLower else c.text)
        · rw [if_pos hne, rracGo, if_pos hmem, hs]
          simp only []
          rw [if_pos hne, ih]
        · rw [if_neg hne]
          exact ih s
    · rw [rracGo, if_neg hmem, rracGo, if_neg hmem, ih]

/-- C9 -- `RemoveRepeatedAdjacentChunks` is idempotent: for every
configuration (tracked types and case sensitivity) and every input chunk
sequence, applying the processor twice yields the same output as once. -/
theorem remove_repeated_adjacent_idempotent
    (cfg : RemoveRepeatedAdjacentChunks) (chunks : List Chunk) :
    cfg.call (cfg.call chunks) = cfg.call chunks :=
  rracGo_idem cfg chunks _

/-- C4 counterexample -- pattern `"a "` (literal), `replace_with = "X"`,
`skip_partial_replacements = false`, chunk text `"a "`.  The *stripped* text
`"a"` does not match the anchored pattern (the claim's hypothesis holds),
and substituting every match would give the non-empty text `"X"`, so the
claim demands an output chunk; but the code matches the anchored pattern
against the *unstripped* text, which matches fully, and drops the chunk. -/
theorem remove_regex_stripped_counterexample :
    pyFullMatchLit "a " (pyStrip "a ") false = false
    ∧ rrpGo (RemoveRegexPattern.mk "a " "X" false [] false)
        [Chunk.mk 0 "a " .TEXT none none none none none] = []
    ∧ pyStrip (pySubLit "a " "X" "a " 0) = "X" := by
  exact ⟨by decide, rfl, by decide⟩

/-- C4 (amended) -- for every `RemoveRegexPattern` processor over a
non-empty literal pattern, configured with `skip_partial_replacements =
false` and `ignore_case = false`, and every chunk of a configured type whose
entire *unstripped* text does not match the anchored pattern: the processor
substitutes every match of the pattern with `replace_with`, strips the
result, drops the chunk if the stripped result is empty, and otherwise emits
a copy carrying the modified text (the input chunk itself is not changed;
`withText` builds the copy).  (`ignore_case = true` would break the claim
differently: the source passes `re.IGNORECASE` as `re.sub`'s positional
`count` argument, capping it at two case-sensitive replacements.) -/
theorem remove_regex_partial_substitution
    (cfg : RemoveRegexPattern) (c : Chunk) (rest : List Chunk)
    (hskip : cfg.skip_partial_replacements = false)
    (hic : cfg.ignore_case = false)
    (_hpat : cfg.pattern ≠ "")
    (htype : cfg.chunk_types = [] ∨ c.chunk_type ∈ cfg.chunk_types)
    (hmatch : pyFullMatchLit cfg.pattern c.text false = false) :
    rrpGo cfg (c :: rest) =
      if (pyStrip (pySubLit cfg.pattern cfg.replace_with c.text 0)).isEmpty
      then
        rrpGo cfg rest
      else
        c.withText (pyStrip (pySubLit cfg.pattern cfg.replace_with c.text 0))
          :: rrpGo cfg rest := by
  have hcond1 : ¬(¬cfg.chunk_types.isEmpty = true
      ∧ c.chunk_type ∉ cfg.chunk_types) := by
    rcases htype with h | h
    · rintro ⟨h1, -⟩; simp [h] at h1
    · rintro ⟨-, h2⟩; exact h2 h
  rw [rrpGo, if_neg hcond1, hic, hmatch]
  simp only [Bool.false_eq_true, if_false]
  rw [hskip]
  simp only [Bool.false_eq_true, if_false]

/-- Closed witness for C4's amended theorem: pattern `"b"` in `"ab b"` with
replacement `"X"`. -/
theorem remove_regex_partial_substitution_witness :
    rrpGo (RemoveRegexPattern.mk "b" "X" false [] false)
        [Chunk.mk 0 "ab b" .TEXT none none none none none] =
      if (pyStrip (pySubLit "b" "X" "ab b" 0)).isEmpty then
        rrpGo (RemoveRegexPattern.mk "b" "X" false [] false) []
      else
        (Chunk.mk 0 "ab b" .TEXT none none none none none).withText
          (pyStrip (pySubLit "b" "X" "ab b" 0))
          :: rrpGo (RemoveRegexPattern.mk "b" "X" false [] false) [] :=
  remove_regex_partial_substitution _ _ _ rfl rfl (by decide) (Or.inl rfl)
    (by decide)

/-- C5 -- the claim says no processor mutates any input chunk in place.
`AddHeadings` does: `new_chunks = list(chunks)` copies only the list, and
the loop assigns `chunk.heading` on the input objects themselves.  Under
reference semantics, running `AddHeadings` on the two input objects
`[TITLE "T", TEXT "a"]` overwrites the heading attribute of the second
*input* object (index 1) with a reference to the first, so the input object
after the call differs from the input object before it. -/
theorem add_headings_mutates_input :
    addHeadingsStore [⟨0, "T", .TITLE, none⟩, ⟨1, "a", .TEXT, none⟩]
      = [⟨0, "T", .TITLE, none⟩, ⟨1, "a", .TEXT, some 0⟩]
    ∧ ((⟨1, "a", .TEXT, some 0⟩ : ChunkCell)
        ≠ (⟨1, "a", .TEXT, none⟩ : ChunkCell)) := by
  exact ⟨rfl, by decide⟩

/-- C8 counterexample -- the claim quantifies over *every* input chunk
sequence, but only heading-typed chunks escape having their `heading`
overwritten: a TITLE input that arrives with a preset heading keeps it, and
a text chunk then reaches it in 3 hops (text → subheading → title → preset). -/
theorem add_headings_depth_counterexample :
    AddHeadings.call
      [Chunk.mk 1 "T" .TITLE
          (some (Chunk.mk 0 "deep" .TEXT none none none none none))
          none none none none,
        Chunk.mk 2 "S" .SECTION_HEADING none none none none none,
        Chunk.mk 3 "x" .TEXT none none none none none]
      = [Chunk.mk 1 "T" .TITLE
          (some (Chunk.mk 0 "deep" .TEXT none none none none none))
          none none none none,
        Chunk.mk 2 "S" .SECTION_HEADING
          (some (Chunk.mk 1 "T" .TITLE
            (some (Chunk.mk 0 "deep" .TEXT none none none none none))
            none none none none)) none none none none,
        Chunk.mk 3 "x" .TEXT
          (some (Chunk.mk 2 "S" .SECTION_HEADING
            (some (Chunk.mk 1 "T" .TITLE
              (some (Chunk.mk 0 "deep" .TEXT none none none none none))
              none none none none)) none none none none))
          none none none none]
    ∧ headingDepth (Chunk.mk 3 "x" .TEXT
        (some (Chunk.mk 2 "S" .SECTION_HEADING
          (some (Chunk.mk 1 "T" .TITLE
            (some (Chunk.mk 0 "deep" .TEXT none none none none none))
            none none none none)) none none none none))
        none none none none) = 3
    ∧ ¬(3 ≤ 2) := by
  exact ⟨rfl, rfl, by decide⟩

lemma headingDepth_withHeading_none (c : Chunk) :
    headingDepth (c.withHeading none) = 0 := by
  cases c; rfl

lemma headingDepth_withHeading_some (c h : Chunk) :
    headingDepth (c.withHeading (some h)) = headingDepth h + 1 := by
  cases c; rfl

lemma headingDepth_of_heading_none (c : Chunk) (h : c.heading = none) :
    headingDepth c = 0 := by
  cases c with
  | mk i t ty hd bb pg tk st =>
    simp only [Chunk.heading] at h
    subst h
    rfl

lemma addHeadings_depth_aux :
    ∀ (chunks : List Chunk) (curH curS : Option Chunk),
      (∀ c ∈ chunks, c.heading = none) →
      (∀ hc, curH = some hc → headingDepth hc = 0) →
      (∀ sc, curS = some sc → headingDepth sc ≤ 1) →
      ∀ c ∈ addHeadings curH curS chunks, headingDepth c ≤ 2 := by
  intro chunks
  induction chunks with
  | nil =>
    intro curH curS _ _ _ c hc
    simp [addHeadings] at hc
  | cons a rest ih =>
    intro curH curS hin hH hS c hc
    have ha : a.heading = none := hin a (by simp)
    have hada : headingDepth a = 0 := headingDepth_of_heading_none a ha
    have hin' : ∀ c' ∈ rest, c'.heading = none :=
      fun c' hc' => hin c' (by simp [hc'])
    by_cases hhead : a.chunk_type ∈ headingTypes
    · simp only [addHeadings] at hc
      rw [if_pos hhead] at hc
      rcases List.mem_cons.mp hc with rfl | hmem
      · omega
      · exact ih (some a) none hin'
          (fun hc' he => by cases he; exact hada)
          (fun sc he => by cases he) c hmem
    · by_cases hsub : a.chunk_type ∈ subheadingTypes
      · simp only [addHeadings] at hc
        rw [if_neg hhead, if_pos hsub] at hc
        have hdepth : headingDepth (a.withHeading curH) ≤ 1 := by
          cases hcur : curH with
          | none => rw [headingDepth_withHeading_none]; omega
          | some hcch =>
            rw [headingDepth_withHeading_some, hH hcch hcur]
        rcases List.mem_cons.mp hc with rfl | hmem
        · omega
        · exact ih curH (some (a.withHeading curH)) hin' hH
            (fun sc he => by cases he; exact hdepth) c hmem
      · simp only [addHeadings] at hc
        rw [if_neg hhead, if_neg hsub] at hc
        rcases List.mem_cons.mp hc with rfl | hmem
        · cases hcs : curS with
          | some sc =>
            show headingDepth (a.withHeading (some sc)) ≤ 2
            rw [headingDepth_withHeading_some]
            have := hS sc hcs
            omega
          | none =>
            show headingDepth (a.withHeading curH) ≤ 2
            cases hcur : curH with
            | none => rw [headingDepth_withHeading_none]; omega
            | some hcch =>
              rw [headingDepth_withHeading_some, hH hcch hcur]
              omega
        · exact ih curH curS hin' hH hS c hmem

/-- C8 (amended) -- for every input chunk sequence whose chunks arrive with
no heading set (the field is populated only by this component, per the
spec's data model), every chunk output by `AddHeadings` reaches the end of
its heading chain within 2 hops; chains are finite, so no cycle is ever
encountered. -/
theorem add_headings_depth_bound (chunks : List Chunk)
    (hin : ∀ c ∈ chunks, c.heading = none) :
    ∀ c ∈ AddHeadings.call chunks, headingDepth c ≤ 2 :=
  addHeadings_depth_aux chunks none none hin
    (fun _ he => by cases he) (fun _ he => by cases he)

/-- Closed witness for C8's amended theorem: the deepest output of
`AddHeadings` over `[TITLE, SECTION_HEADING, TEXT]` has exactly a 2-hop
chain. -/
theorem add_headings_depth_bound_witness :
    headingDepth (Chunk.mk 2 "x" .TEXT
      (some (Chunk.mk 1 "S" .SECTION_HEADING
        (some (Chunk.mk 0 "T" .TITLE none none none none none))
        none none none none)) none none none none) ≤ 2 := by
  have h := add_headings_depth_bound
    [Chunk.mk 0 "T" .TITLE none none none none none,
     Chunk.mk 1 "S" .SECTION_HEADING none none none none none,
     Chunk.mk 2 "x" .TEXT none none none none none]
    (by intro c hc
        simp only [List.mem_cons, List.not_mem_nil, or_false] at hc
        rcases hc with rfl | rfl | rfl <;> rfl)
  exact h _ (by
    rw [show AddHeadings.call
        [Chunk.mk 0 "T" .TITLE none none none none none,
         Chunk.mk 1 "S" .SECTION_HEADING none none none none none,
         Chunk.mk 2 "x" .TEXT none none none none none]
      = [Chunk.mk 0 "T" .TITLE none none none none none,
         Chunk.mk 1 "S" .SECTION_HEADING
           (some (Chunk.mk 0 "T" .TITLE none none none none none))
           none none none none,
         Chunk.mk 2 "x" .TEXT
           (some (Chunk.mk 1 "S" .SECTION_HEADING
             (some (Chunk.mk 0 "T" .TITLE none none none none none))
             none none none none)) none none none none] from rfl]
    exact List.Mem.tail _ (List.Mem.tail _ (List.Mem.head _)))

/-- C7 -- `SplitTextIntoSentences` (basic strategy, with the router's
default ignore set containing page headers and footers) over
`[TEXT "This is the beginning", PAGE_FOOTER "Page 1", PAGE_HEADER "Page 2",
TEXT "that continues."]` outputs exactly three chunks in order: the
completed cross-chunk sentence `"This is the beginning that continues."`
(as a TEXT chunk merged from both text chunks), then `"Page 1"`, then
`"Page 2"` -- the buffered footer and header are re-emitted after the
completed sentence, never interleaved mid-sentence. -/
theorem split_sentences_buffer_scenario :
    SplitTextIntoSentencesBasic.call [.PAGE_HEADER, .PAGE_FOOTER, .FOOT_NOTE]
      [Chunk.mk 0 "This is the beginning" .TEXT none none none none none,
       Chunk.mk 1 "Page 1" .PAGE_FOOTER none none none none none,
       Chunk.mk 2 "Page 2" .PAGE_HEADER none none none none none,
       Chunk.mk 3 "that continues." .TEXT none none none none none]
    = .ok
      [Chunk.mk 0 "This is the beginning that continues." .TEXT
         none none none none none,
       Chunk.mk 1 "Page 1" .PAGE_FOOTER none none none none none,
       Chunk.mk 2 "Page 2" .PAGE_HEADER none none none none none] := by
  rfl

end NavDoc
